import Mathlib

/-!
A shallow embedding of the NETCONF-Ansible ROADM configuration core
(`src/channel.py` and `src/config.py`), together with theorems checking the
natural-language specification against it.

Modelling conventions:
* Python floats become `ℚ` (the code only adds, subtracts, multiplies and
  divides by powers of ten, and compares with `==`).
* Python `None`-able attributes become `Option` fields.
* Python exceptions (`AssertionError` from `assert`, `ValueError` from a failed
  plan lookup) become an `Except ChannelError` result of construction.
* `list.sort()` (a stable sort; for `Channel` the comparison falls back to the
  reflected `__gt__`, i.e. sorting by `name`) becomes `List.mergeSort`, which is
  also stable.
-/

deriving instance DecidableEq for Except

namespace Roadm

/-- One entry of the channel plan document
(`channel_plan['data']['channel-plan']['channel']`): a name and the two
frequency bounds, already parsed to numbers as `_find_channel` does with
`float(...)`. -/
structure PlanEntry where
  name : String
  lowerFrequency : ℚ
  upperFrequency : ℚ
deriving DecidableEq, Repr

/-- The channel plan: the list of entries in declared document order. -/
abbrev ChannelPlan := List PlanEntry

/-- The `Channel.origin` flag: either `'yaml'` (proposed intent) or `'xml'` (device state). -/
inductive Origin where
  | yaml
  | xml
deriving DecidableEq, Repr

/-- The constant `Channel.center_exp = 1e6` from `Channel.__init__`. -/
def center_exp : ℚ := 1000000

/-- The constant `Channel.span_exp = 1e3` from `Channel.__init__`. -/
def span_exp : ℚ := 1000

/-- The `Channel` object: every attribute that `Channel.__init__` initialises
to `None` is an `Option` field here. -/
structure Channel where
  origin : Origin
  name : Option String := none
  port : Option String := none
  attenuation : Option ℚ := none
  description : Option String := none
  frequency_span : Option ℚ := none
  frequency_center : Option ℚ := none
  lower_frequency : Option ℚ := none
  upper_frequency : Option ℚ := none
deriving DecidableEq, Repr

/-- Embeds `Channel._find_channel`: scan the plan in declared order.  If both
`frequency_center` and `frequency_span` are set, match an entry whose bounds
equal the window computed from center/span; otherwise, if `name` is set, match
an entry with that exact name and derive span/center from its bounds.  Returns
the updated channel on success (`True` in the source, which mutates `self`),
`none` on failure (`False`). -/
def find_channel (self : Channel) : ChannelPlan → Option Channel
  | [] => none
  | entry :: rest =>
    match self.frequency_center, self.frequency_span with
    | some fc, some fs =>
      let channel_lf := fc * center_exp - fs * span_exp / 2
      let channel_uf := fc * center_exp + fs * span_exp / 2
      if channel_lf = entry.lowerFrequency ∧ channel_uf = entry.upperFrequency then
        some { self with
                name := some entry.name
                lower_frequency := some entry.lowerFrequency
                upper_frequency := some entry.upperFrequency }
      else
        find_channel self rest
    | _, _ =>
      match self.name with
      | some n =>
        if entry.name = n then
          let frequency_span := entry.upperFrequency - entry.lowerFrequency
          let frequency_center := entry.lowerFrequency + frequency_span / 2
          some { self with
                  lower_frequency := some entry.lowerFrequency
                  upper_frequency := some entry.upperFrequency
                  frequency_span := some (frequency_span / span_exp)
                  frequency_center := some (frequency_center / center_exp) }
        else
          find_channel self rest
      | none => find_channel self rest

/-- Errors raised during `Channel` construction: `validationError` for the
`assert`s on a YAML descriptor's required keys, `consistencyError` for the
`assert`s on an XML descriptor's add/drop blocks, `resolutionError` for the
`ValueError` raised when `_find_channel` returns `False`. -/
inductive ChannelError where
  | validationError
  | consistencyError
  | resolutionError
deriving DecidableEq, Repr

/-- A proposed-intent (YAML) channel descriptor: the keys `_init_from_yaml`
reads, each `Option` because the source checks presence with `assert`/`in`. -/
structure YamlChannelDesc where
  leaf_port : Option String := none
  attenuation : Option ℚ := none
  frequency_span : Option ℚ := none
  frequency_center : Option ℚ := none
  description : Option String := none
deriving DecidableEq, Repr

/-- One `add` or `drop` sub-block of a device-state (XML) descriptor. -/
structure AddDropBlock where
  port : Option String := none
  attenuation : Option ℚ := none
deriving DecidableEq, Repr

/-- A device-state (XML) channel descriptor as `_init_from_xml` reads it:
`channel` (the name) is always accessed directly, the rest is checked with
`in`. -/
structure XmlChannelDesc where
  channel : String
  add : Option AddDropBlock := none
  drop : Option AddDropBlock := none
  description : Option String := none
deriving DecidableEq, Repr

/-- Embeds `Channel._init_from_yaml` followed by the `_find_channel` call: assert the
four required keys, copy them, then resolve by frequency window; a failed
resolution raises `ValueError` (here `resolutionError`). -/
def init_from_yaml (channel : YamlChannelDesc) (plan : ChannelPlan) :
    Except ChannelError Channel :=
  match channel.leaf_port, channel.attenuation,
        channel.frequency_span, channel.frequency_center with
  | some port, some att, some fs, some fc =>
    let self : Channel :=
      { origin := .yaml
        port := some port
        attenuation := some att
        frequency_span := some fs
        frequency_center := some fc
        description := channel.description }
    match find_channel self plan with
    | some c => .ok c
    | none => .error .resolutionError
  | _, _, _, _ => .error .validationError

/-- Embeds `Channel._init_from_xml` followed by the `_find_channel` call: set the name
from the descriptor; unless the name is `"C-band"`, assert that `add` and
`drop` blocks exist, both carry `port` and `attenuation`, and agree on both,
then copy port/attenuation/description; finally resolve by name. -/
def init_from_xml (channel : XmlChannelDesc) (plan : ChannelPlan) :
    Except ChannelError Channel :=
  if channel.channel ≠ "C-band" then
    match channel.add, channel.drop with
    | some addBlock, some dropBlock =>
      match addBlock.attenuation, dropBlock.attenuation,
            addBlock.port, dropBlock.port with
      | some addAtt, some dropAtt, some addPort, some dropPort =>
        if addPort = dropPort then
          if addAtt = dropAtt then
            let self : Channel :=
              { origin := .xml
                name := some channel.channel
                port := some addPort
                attenuation := some addAtt
                description := channel.description }
            match find_channel self plan with
            | some c => .ok c
            | none => .error .resolutionError
          else .error .consistencyError
        else .error .consistencyError
      | _, _, _, _ => .error .consistencyError
    | _, _ => .error .consistencyError
  else
    let self : Channel := { origin := .xml, name := some channel.channel }
    match find_channel self plan with
    | some c => .ok c
    | none => .error .resolutionError

/-- Embeds `Channel.__eq__`: if `self.name == 'C-band'` compare names only, otherwise
compare name, port, attenuation and the two bound frequencies. -/
def chanEq (self other : Channel) : Bool :=
  if self.name = some "C-band" then
    self.name = other.name
  else
    self.name = other.name && self.port = other.port &&
      self.attenuation = other.attenuation &&
      self.lower_frequency = other.lower_frequency &&
      self.upper_frequency = other.upper_frequency

/-- The comparison `list.sort()` uses on channels: `a < b` falls back to the
reflected `Channel.__gt__`, i.e. comparison of the `name` strings. -/
def chanLe (a b : Channel) : Bool := a.name.getD "" ≤ b.name.getD ""

/-- One entry of `changed_channels`: the dict
`{'proposed': proposed_channel, 'current': current_channel}`. -/
structure ChangedPair where
  proposed : Channel
  current : Channel
deriving DecidableEq, Repr

/-- The first loop body of `_calculate_statistics` restricted to removal: a
current channel lands in `removed_channels` when the inner loop over
`proposed_channels` never breaks, i.e. no proposed channel shares its name. -/
def removed0 (current proposed : List Channel) : List Channel :=
  current.filter fun c => (proposed.find? fun p => p.name = c.name).isNone

/-- The first loop body of `_calculate_statistics` restricted to change: the
inner loop breaks at the first proposed channel with the same name, and the
pair is recorded when `current_channel != proposed_channel`. -/
def changed0 (current proposed : List Channel) : List ChangedPair :=
  current.filterMap fun c =>
    match proposed.find? fun p => p.name = c.name with
    | some p => if chanEq c p then none else some ⟨p, c⟩
    | none => none

/-- The second loop of `_calculate_statistics`: a proposed channel lands in
`added_channels` when no current channel shares its name. -/
def added0 (current proposed : List Channel) : List Channel :=
  proposed.filter fun p => (current.find? fun c => c.name = p.name).isNone

/-- The result tuple of `CzechLightROADMConfig._calculate_statistics`. -/
structure Stats where
  added : List Channel
  removed : List Channel
  changed : List ChangedPair
  merged : List Channel
deriving Repr

/-- Embeds `CzechLightROADMConfig._calculate_statistics`: classify, build
`merged_channels = proposed_channels + removed_channels`, then sort all four
lists (ascending by name; `changed` by the current-side name). -/
def calculate_statistics (current proposed : List Channel) : Stats :=
  let removed_channels := removed0 current proposed
  let changed_channels := changed0 current proposed
  let added_channels := added0 current proposed
  let merged_channels := proposed ++ removed_channels
  { added := added_channels.mergeSort chanLe
    removed := removed_channels.mergeSort chanLe
    changed := changed_channels.mergeSort fun x y =>
      x.current.name.getD "" ≤ y.current.name.getD ""
    merged := merged_channels.mergeSort chanLe }

/-- The configuration mode passed to `CzechLightROADMConfig.__init__`. -/
inductive Mode where
  | merge
  | replace
deriving DecidableEq, Repr

/-- The fields of a `CzechLightROADMConfig` observable after `__init__`. -/
structure ROADMConfig where
  added_channels : List Channel
  removed_channels : List Channel
  changed_channels : List ChangedPair
  merged_channels : List Channel
  final_channels : List Channel
deriving Repr

/-- The tail of `CzechLightROADMConfig.__init__` (after both channel lists are
built): run `_calculate_statistics`, then in `'merge'` mode set
`final_channels = merged_channels` and reset `removed_channels = []`, in
`'replace'` mode set `final_channels = proposed_channels`. -/
def roadm_config (current proposed : List Channel) (mode : Mode) : ROADMConfig :=
  let s := calculate_statistics current proposed
  match mode with
  | .merge =>
    { added_channels := s.added
      removed_channels := []
      changed_channels := s.changed
      merged_channels := s.merged
      final_channels := s.merged }
  | .replace =>
    { added_channels := s.added
      removed_channels := s.removed
      changed_channels := s.changed
      merged_channels := s.merged
      final_channels := proposed }

/-- A rendered XML element: tag, optional text, children in document order
(attributes play no role in the claims). -/
structure XmlElem where
  tag : String
  text : Option String
  children : List XmlElem

/-- Embeds `str(self.attenuation)` in `create_xml_child`: Python prints `None` for an
unset attenuation and the number otherwise. -/
def attStr : Option ℚ → String
  | none => "None"
  | some a => toString a

/-- Embeds `Channel.create_xml_child`: one `media-channels` element holding, in order,
the `channel` name, an `add` block and a `drop` block each with `port` and
`attenuation` read from the single stored pair, and a `description` element
exactly when `self.description is not None`. -/
def create_xml_child (self : Channel) : XmlElem :=
  { tag := "media-channels"
    text := none
    children :=
      [ { tag := "channel", text := self.name, children := [] },
        { tag := "add"
          text := none
          children :=
            [ { tag := "port", text := self.port, children := [] },
              { tag := "attenuation", text := some (attStr self.attenuation),
                children := [] } ] },
        { tag := "drop"
          text := none
          children :=
            [ { tag := "port", text := self.port, children := [] },
              { tag := "attenuation", text := some (attStr self.attenuation),
                children := [] } ] } ]
      ++ match self.description with
         | some d => [ { tag := "description", text := some d, children := [] } ]
         | none => [] }

/-- Embeds `CzechLightROADMConfig.create_config`: a `config` root whose children are
the blocks of `final_channels`, one per channel, in list order. -/
def create_config (final_channels : List Channel) : XmlElem :=
  { tag := "config"
    text := none
    children := final_channels.map create_xml_child }

/-- Look up the first child with a given tag (used to state renderer claims
without restating `create_xml_child`). -/
def childTagged (x : XmlElem) (t : String) : Option XmlElem :=
  x.children.find? fun c => c.tag = t

/-- The add/drop consistency precondition that the `assert`s of
`_init_from_xml` check on a non-sentinel device-state descriptor: both blocks
present, both carrying a port and an attenuation, equal across the blocks. -/
def ConsistentAddDrop (d : XmlChannelDesc) : Prop :=
  ∃ addBlock dropBlock port att,
    d.add = some addBlock ∧ d.drop = some dropBlock ∧
    addBlock.port = some port ∧ dropBlock.port = some port ∧
    addBlock.attenuation = some att ∧ dropBlock.attenuation = some att

/-- Exactly one of four propositions holds. -/
def ExactlyOne (p1 p2 p3 p4 : Prop) : Prop :=
  (p1 ∧ ¬p2 ∧ ¬p3 ∧ ¬p4) ∨ (¬p1 ∧ p2 ∧ ¬p3 ∧ ¬p4) ∨
    (¬p1 ∧ ¬p2 ∧ p3 ∧ ¬p4) ∨ (¬p1 ∧ ¬p2 ∧ ¬p3 ∧ p4)

/-! ### Helper lemmas about `find_channel` -/

/-- The scan `_find_channel` only fills frequency attributes and the name: origin, port,
attenuation and description are untouched. -/
theorem find_channel_preserves (self : Channel) (plan : ChannelPlan) (c : Channel)
    (h : find_channel self plan = some c) :
    c.origin = self.origin ∧ c.port = self.port ∧
      c.attenuation = self.attenuation ∧ c.description = self.description := by
  induction plan with
  | nil => simp [find_channel] at h
  | cons e rest ih =>
    rw [find_channel] at h
    rcases hfc : self.frequency_center with _ | fc <;>
      rcases hfs : self.frequency_span with _ | fs <;>
      simp only [hfc, hfs] at h
    · rcases hn : self.name with _ | n <;> simp only [hn] at h
      · exact ih h
      · split at h
        · cases h
          simp
        · exact ih h
    · rcases hn : self.name with _ | n <;> simp only [hn] at h
      · exact ih h
      · split at h
        · cases h
          simp
        · exact ih h
    · rcases hn : self.name with _ | n <;> simp only [hn] at h
      · exact ih h
      · split at h
        · cases h
          simp
        · exact ih h
    · split at h
      · cases h
        simp
      · exact ih h

/-- When center and span are both set, `_find_channel` is exactly a first-match
scan for the plan entry whose bounds equal the computed frequency window. -/
theorem find_channel_by_window (self : Channel) (fc fs : ℚ) (plan : ChannelPlan)
    (hc : self.frequency_center = some fc) (hs : self.frequency_span = some fs) :
    find_channel self plan =
      (plan.find? fun e =>
          decide (fc * center_exp - fs * span_exp / 2 = e.lowerFrequency ∧
            fc * center_exp + fs * span_exp / 2 = e.upperFrequency)).map
        fun e =>
          { self with
              name := some e.name
              lower_frequency := some e.lowerFrequency
              upper_frequency := some e.upperFrequency } := by
  induction plan with
  | nil => simp [find_channel]
  | cons e rest ih =>
    rw [find_channel]
    simp only [hc, hs, List.find?]
    by_cases hmatch :
        fc * center_exp - fs * span_exp / 2 = e.lowerFrequency ∧
          fc * center_exp + fs * span_exp / 2 = e.upperFrequency
    · simp [hmatch]
    · simp [hmatch, ih, hc, hs]

/-- When center (hence the window branch) is unavailable and a name is set,
`_find_channel` is exactly a first-match scan for the plan entry with that
name, deriving span and center from its bounds. -/
theorem find_channel_by_name (self : Channel) (n : String) (plan : ChannelPlan)
    (hn : self.name = some n) (hc : self.frequency_center = none) :
    find_channel self plan =
      (plan.find? fun e => e.name = n).map fun e =>
        { self with
            lower_frequency := some e.lowerFrequency
            upper_frequency := some e.upperFrequency
            frequency_span :=
              some ((e.upperFrequency - e.lowerFrequency) / span_exp)
            frequency_center :=
              some ((e.lowerFrequency +
                (e.upperFrequency - e.lowerFrequency) / 2) / center_exp) } := by
  induction plan with
  | nil => simp [find_channel]
  | cons e rest ih =>
    rw [find_channel]
    simp only [hc, hn, List.find?]
    by_cases hname : e.name = n
    · simp [hname]
    · simp [hname, ih, hn]

/-! ### Helper lemmas about equality, uniqueness and the diff -/

/-- The relation `Channel.__eq__` is reflexive. -/
theorem chanEq_refl (c : Channel) : chanEq c c = true := by
  unfold chanEq
  split <;> simp

/-- In a collection with unique names, two members sharing a name coincide. -/
theorem eq_of_name_eq_of_nodup {l : List Channel}
    (hl : (l.map Channel.name).Nodup) {a b : Channel}
    (ha : a ∈ l) (hb : b ∈ l) (hab : a.name = b.name) : a = b :=
  List.inj_on_of_nodup_map hl ha hb hab

/-- In a collection with unique names, the first-match scan for a member's name
finds exactly that member. -/
theorem find?_name_self_of_nodup {l : List Channel}
    (hl : (l.map Channel.name).Nodup) {p : Channel} (hp : p ∈ l) :
    (l.find? fun q => q.name = p.name) = some p := by
  have hsome : (l.find? fun q => q.name = p.name).isSome :=
    List.find?_isSome.mpr ⟨p, hp, by simp⟩
  rcases Option.isSome_iff_exists.mp hsome with ⟨q, hq⟩
  have hqmem : q ∈ l := List.mem_of_find?_eq_some hq
  have hqname : q.name = p.name := by
    have := List.find?_some hq
    simpa using this
  rw [hq, eq_of_name_eq_of_nodup hl hqmem hp hqname]

/-- Running `init_from_yaml` on a descriptor with all four required keys is exactly a
first-match scan for the plan entry whose bounds equal the frequency window
computed with the scale constants `1e6` and `1e3`. -/
theorem init_from_yaml_eq_find (port : String) (att fs fc : ℚ)
    (desc : Option String) (plan : ChannelPlan) :
    init_from_yaml
        { leaf_port := some port, attenuation := some att,
          frequency_span := some fs, frequency_center := some fc,
          description := desc } plan =
      match plan.find? fun e =>
          decide (fc * 1000000 - fs * 1000 / 2 = e.lowerFrequency ∧
            fc * 1000000 + fs * 1000 / 2 = e.upperFrequency) with
      | some e =>
        .ok { origin := .yaml, name := some e.name, port := some port,
              attenuation := some att, description := desc,
              frequency_span := some fs, frequency_center := some fc,
              lower_frequency := some e.lowerFrequency,
              upper_frequency := some e.upperFrequency }
      | none => .error .resolutionError := by
  unfold init_from_yaml
  dsimp only
  rw [find_channel_by_window _ fc fs plan rfl rfl]
  have hexp : center_exp = (1000000 : ℚ) ∧ span_exp = (1000 : ℚ) := ⟨rfl, rfl⟩
  rw [hexp.1, hexp.2]
  cases plan.find? fun e =>
      decide (fc * 1000000 - fs * 1000 / 2 = e.lowerFrequency ∧
        fc * 1000000 + fs * 1000 / 2 = e.upperFrequency) <;> rfl

/-! ### Claim theorems -/

/-- C4: resolution by frequency window.  For every intent descriptor carrying
`frequencyCenter` and `frequencySpan` (and the other required keys) and every
plan, construction computes `low = center*1e6 - span*1e3/2` and
`high = center*1e6 + span*1e3/2`, scans the plan entries in declared order, and
succeeds on the first entry whose stored bounds equal `(low, high)` exactly,
setting the channel's name and both bound frequencies from that entry; with no
exact match it fails with a resolution error. -/
theorem C4_resolution_by_window (port : String) (att fs fc : ℚ)
    (desc : Option String) (plan : ChannelPlan) :
    init_from_yaml
        { leaf_port := some port, attenuation := some att,
          frequency_span := some fs, frequency_center := some fc,
          description := desc } plan =
      match plan.find? fun e =>
          decide (fc * 1000000 - fs * 1000 / 2 = e.lowerFrequency ∧
            fc * 1000000 + fs * 1000 / 2 = e.upperFrequency) with
      | some e =>
        .ok { origin := .yaml, name := some e.name, port := some port,
              attenuation := some att, description := desc,
              frequency_span := some fs, frequency_center := some fc,
              lower_frequency := some e.lowerFrequency,
              upper_frequency := some e.upperFrequency }
      | none => .error .resolutionError :=
  init_from_yaml_eq_find port att fs fc desc plan

/-- C6: equality sentinel rule.  For all channels `a` and `b`: when either name
is `"C-band"`, `chanEq a b` holds iff the names are equal; otherwise it holds
iff name, port, attenuation and both bound frequencies are all equal; and
`chanEq` is symmetric and reflexive. -/
theorem C6_equality_sentinel (a b : Channel) :
    (chanEq a b =
      if a.name = some "C-band" ∨ b.name = some "C-band" then
        decide (a.name = b.name)
      else
        decide (a.name = b.name ∧ a.port = b.port ∧
          a.attenuation = b.attenuation ∧
          a.lower_frequency = b.lower_frequency ∧
          a.upper_frequency = b.upper_frequency)) ∧
    chanEq a b = chanEq b a ∧ chanEq a a = true := by
  refine ⟨?_, ?_, chanEq_refl a⟩
  · by_cases ha : a.name = some "C-band" <;> by_cases hb : b.name = some "C-band"
    · simp [chanEq, ha, hb]
    · simp [chanEq, ha, hb]
    · have hne : a.name ≠ b.name := by
        rw [hb]
        exact ha
      simp [chanEq, ha, hb, hne]
    · simp [chanEq, ha, hb, Bool.and_assoc]
  · by_cases ha : a.name = some "C-band" <;> by_cases hb : b.name = some "C-band"
    · simp [chanEq, ha, hb]
    · have hne : b.name ≠ a.name := by
        rw [ha]
        exact hb
      simp [chanEq, ha, hb, hne, eq_comm]
    · have hne : a.name ≠ b.name := by
        rw [hb]
        exact ha
      simp [chanEq, ha, hb, hne, eq_comm]
    · simp only [chanEq, ha, hb, if_neg]
      simp [eq_comm, Bool.and_comm, Bool.and_assoc, Bool.and_left_comm]

/-- C1: final-state selection by mode.  In `merge` mode the final channel set
(as a multiset) is the proposed channels plus every current channel whose name
appears in no proposed channel, and the reported removed set is reset to empty;
in `replace` mode the final channels are exactly the proposed collection and
the removed set from classification is kept. -/
theorem C1_mode_selection (current proposed : List Channel) :
    ((roadm_config current proposed .merge).final_channels : Multiset Channel) =
        (proposed : Multiset Channel) +
          (current.filter fun c =>
            decide (∀ p ∈ proposed, p.name ≠ c.name) : List Channel) ∧
    (roadm_config current proposed .merge).removed_channels = [] ∧
    (roadm_config current proposed .replace).final_channels = proposed ∧
    (roadm_config current proposed .replace).removed_channels =
      (calculate_statistics current proposed).removed := by
  refine ⟨?_, rfl, rfl, rfl⟩
  have hfilter : removed0 current proposed =
      current.filter fun c => decide (∀ p ∈ proposed, p.name ≠ c.name) := by
    apply List.filter_congr
    intro c _
    rcases hfind : proposed.find? fun p => p.name = c.name with _ | p
    · have hall : ∀ p ∈ proposed, p.name ≠ c.name := by
        have := List.find?_eq_none.mp hfind
        simpa using this
      simp only [hfind, Option.isNone_none, true_eq_decide_iff]
      exact hall
    · have h1 : p.name = c.name := by simpa using List.find?_some hfind
      have h2 : p ∈ proposed := List.mem_of_find?_eq_some hfind
      have hnall : ¬ ∀ p ∈ proposed, p.name ≠ c.name := fun hall => hall p h2 h1
      simp [hfind, hnall]
  have hmain : (roadm_config current proposed .merge).final_channels =
      (proposed ++ removed0 current proposed).mergeSort chanLe := rfl
  rw [hmain, ← hfilter, Multiset.coe_eq_coe.mpr (List.mergeSort_perm _ _),
    ← Multiset.coe_add]

/-- C8: renderer verbatim and symmetric.  The rendered document has exactly one
`media-channels` block per input channel, in input order, with no filtering or
deduplication; in each block the `add` leg and the `drop` leg hold the same
port element and the same attenuation element (rendered from the channel's
single stored pair), and a `description` element is emitted iff the channel's
description is present. -/
theorem C8_renderer_verbatim (channels : List Channel) :
    (create_config channels).children = channels.map create_xml_child ∧
    ∀ c : Channel,
      childTagged (create_xml_child c) "channel" =
        some { tag := "channel", text := c.name, children := [] } ∧
      (∃ addElem dropElem,
        childTagged (create_xml_child c) "add" = some addElem ∧
        childTagged (create_xml_child c) "drop" = some dropElem ∧
        childTagged addElem "port" = childTagged dropElem "port" ∧
        childTagged addElem "attenuation" = childTagged dropElem "attenuation" ∧
        childTagged addElem "port" =
          some { tag := "port", text := c.port, children := [] } ∧
        childTagged addElem "attenuation" =
          some { tag := "attenuation", text := some (attStr c.attenuation),
                 children := [] }) ∧
      childTagged (create_xml_child c) "description" =
        c.description.map fun d =>
          { tag := "description", text := some d, children := [] } := by
  refine ⟨rfl, fun c => ⟨rfl, ⟨_, _, rfl, rfl, rfl, rfl, rfl, rfl⟩, ?_⟩⟩
  cases hd : c.description with
  | none => simp [childTagged, create_xml_child, hd]
  | some d => simp [childTagged, create_xml_child, hd]

/-- C5 counterexample: in the plan `[A(1,2), B(1,2)]` the synthetic descriptor
inverted from entry `B` (span `(2-1)/1e3`, center `(1+(2-1)/2)/1e6`) resolves
to the earlier entry `A`, not to an entry named `B`, because the frequency-
window scan takes the first entry with matching bounds. -/
theorem C5_counterexample :
    init_from_yaml
        { leaf_port := some "p", attenuation := some 0,
          frequency_span := some (((2 : ℚ) - 1) / 1000),
          frequency_center := some (((1 : ℚ) + ((2 : ℚ) - 1) / 2) / 1000000),
          description := none }
        [{ name := "A", lowerFrequency := 1, upperFrequency := 2 },
         { name := "B", lowerFrequency := 1, upperFrequency := 2 }] =
      .ok { origin := .yaml, name := some "A", port := some "p",
            attenuation := some 0, description := none,
            frequency_span := some (((2 : ℚ) - 1) / 1000),
            frequency_center := some (((1 : ℚ) + ((2 : ℚ) - 1) / 2) / 1000000),
            lower_frequency := some 1, upper_frequency := some 2 } ∧
    "A" ≠ "B" := by
  refine ⟨?_, by decide⟩
  rw [init_from_yaml_eq_find]
  norm_num [List.find?]

/-- C5 (amended): round-trip resolution.  For every plan entry `e` that is the
first entry of the plan carrying its `(lowerFrequency, upperFrequency)` bounds
(in particular, for every entry when the plan has no duplicate windows), a
synthetic proposed descriptor with `frequencySpan = (upper - lower)/1e3` and
`frequencyCenter = (lower + (upper - lower)/2)/1e6`, resolved by frequency
window against that plan, resolves back to an entry named `e.name`. -/
theorem C5_roundtrip_amended (plan : ChannelPlan) (e : PlanEntry)
    (hfirst : (plan.find? fun e2 =>
        decide (e.lowerFrequency = e2.lowerFrequency ∧
          e.upperFrequency = e2.upperFrequency)) = some e)
    (port : String) (att : ℚ) (desc : Option String) :
    ∃ c, init_from_yaml
        { leaf_port := some port, attenuation := some att,
          frequency_span := some ((e.upperFrequency - e.lowerFrequency) / 1000),
          frequency_center := some ((e.lowerFrequency +
            (e.upperFrequency - e.lowerFrequency) / 2) / 1000000),
          description := desc } plan = .ok c ∧ c.name = some e.name := by
  rw [init_from_yaml_eq_find]
  have hlow : (e.lowerFrequency + (e.upperFrequency - e.lowerFrequency) / 2) /
        1000000 * 1000000 -
      (e.upperFrequency - e.lowerFrequency) / 1000 * 1000 / 2 =
        e.lowerFrequency := by
    field_simp
    ring
  have hhigh : (e.lowerFrequency + (e.upperFrequency - e.lowerFrequency) / 2) /
        1000000 * 1000000 +
      (e.upperFrequency - e.lowerFrequency) / 1000 * 1000 / 2 =
        e.upperFrequency := by
    field_simp
    ring
  have hpred : (fun e2 : PlanEntry =>
      decide ((e.lowerFrequency + (e.upperFrequency - e.lowerFrequency) / 2) /
            1000000 * 1000000 -
          (e.upperFrequency - e.lowerFrequency) / 1000 * 1000 / 2 =
            e2.lowerFrequency ∧
        (e.lowerFrequency + (e.upperFrequency - e.lowerFrequency) / 2) /
            1000000 * 1000000 +
          (e.upperFrequency - e.lowerFrequency) / 1000 * 1000 / 2 =
            e2.upperFrequency)) = fun e2 : PlanEntry =>
      decide (e.lowerFrequency = e2.lowerFrequency ∧
        e.upperFrequency = e2.upperFrequency) := by
    funext e2
    rw [hlow, hhigh]
  rw [hpred, hfirst]
  exact ⟨_, rfl, rfl⟩

/-- C5 witness: the amended round-trip at the spec's example plan entry
`C1 = (191300000, 191400000)`. -/
theorem C5_roundtrip_witness :
    ∃ c, init_from_yaml
        { leaf_port := some "1", attenuation := some 3,
          frequency_span := some (((191400000 : ℚ) - 191300000) / 1000),
          frequency_center := some (((191300000 : ℚ) +
            ((191400000 : ℚ) - 191300000) / 2) / 1000000),
          description := none }
        [{ name := "C1", lowerFrequency := 191300000,
           upperFrequency := 191400000 }] = .ok c ∧ c.name = some "C1" :=
  C5_roundtrip_amended
    [{ name := "C1", lowerFrequency := 191300000, upperFrequency := 191400000 }]
    { name := "C1", lowerFrequency := 191300000, upperFrequency := 191400000 }
    (by decide) "1" 3 none

/-- C7 counterexample: a device-state descriptor named `"X"` whose add and drop
blocks both carry port `"1"` and attenuation `1` (so the add/drop consistency
check passes) still fails to construct against an empty plan — construction
raises a resolution error, so "fails iff the blocks are inconsistent" is false
as stated. -/
theorem C7_counterexample :
    init_from_xml
        { channel := "X",
          add := some { port := some "1", attenuation := some 1 },
          drop := some { port := some "1", attenuation := some 1 },
          description := none } [] = .error .resolutionError ∧
    ("X" : String) ≠ "C-band" := by decide

/-- C7 (amended): device-state construction consistency check.  For every
device-state descriptor whose channel name is not `"C-band"` and whose name
appears in the channel plan, construction fails iff the add block and drop
block do not both carry a port and an attenuation with `add.port = drop.port`
and `add.attenuation = drop.attenuation` (or one of the blocks is absent);
when the check passes, the constructed channel stores the single shared port
and attenuation value. -/
theorem C7_consistency_amended (d : XmlChannelDesc) (plan : ChannelPlan)
    (hname : d.channel ≠ "C-band") (hplan : ∃ e ∈ plan, e.name = d.channel) :
    ((∃ err, init_from_xml d plan = .error err) ↔ ¬ ConsistentAddDrop d) ∧
    ∀ c addBlock, init_from_xml d plan = .ok c → d.add = some addBlock →
      c.port = addBlock.port ∧ c.attenuation = addBlock.attenuation := by
  unfold init_from_xml
  rw [if_pos hname]
  split
  · next addB dropB haddB hdropB =>
    split
    · next aAtt dAtt aPort dPort haA hdA haP hdP =>
      by_cases hport : aPort = dPort
      · rw [if_pos hport]
        by_cases hatt : aAtt = dAtt
        · rw [if_pos hatt]
          dsimp only
          obtain ⟨e, he, hename⟩ := hplan
          have hsome : ((plan.find? fun e2 => e2.name = d.channel)).isSome :=
            List.find?_isSome.mpr ⟨e, he, by simp [hename]⟩
          rcases Option.isSome_iff_exists.mp hsome with ⟨efound, hefound⟩
          rw [find_channel_by_name _ d.channel plan rfl rfl, hefound]
          constructor
          · constructor
            · rintro ⟨err, herr⟩
              exact absurd herr (by simp)
            · intro hncons
              refine absurd ⟨addB, dropB, aPort, aAtt, haddB, hdropB, haP,
                ?_, haA, ?_⟩ hncons
              · rw [hdP, hport]
              · rw [hdA, hatt]
          · intro c aB hc haB
            rw [haddB] at haB
            injection haB with haB
            subst haB
            injection hc with hc
            rw [← hc]
            exact ⟨haP.symm, haA.symm⟩
        · rw [if_neg hatt]
          refine ⟨⟨fun _ => ?_, fun _ => ⟨.consistencyError, rfl⟩⟩,
            fun c aB hc _ => absurd hc (by simp)⟩
          rintro ⟨aB, dB, p, a, h1, h2, h3, h4, h5, h6⟩
          rw [haddB] at h1
          injection h1 with h1
          subst h1
          rw [hdropB] at h2
          injection h2 with h2
          subst h2
          rw [haA] at h5
          injection h5 with h5
          rw [hdA] at h6
          injection h6 with h6
          exact hatt (h5.trans h6.symm)
      · rw [if_neg hport]
        refine ⟨⟨fun _ => ?_, fun _ => ⟨.consistencyError, rfl⟩⟩,
          fun c aB hc _ => absurd hc (by simp)⟩
        rintro ⟨aB, dB, p, a, h1, h2, h3, h4, h5, h6⟩
        rw [haddB] at h1
        injection h1 with h1
        subst h1
        rw [hdropB] at h2
        injection h2 with h2
        subst h2
        rw [haP] at h3
        injection h3 with h3
        rw [hdP] at h4
        injection h4 with h4
        exact hport (h3.trans h4.symm)
    · next hnomatch =>
      refine ⟨⟨fun _ => ?_, fun _ => ⟨.consistencyError, rfl⟩⟩,
        fun c aB hc _ => absurd hc (by simp)⟩
      rintro ⟨aB, dB, p, a, h1, h2, h3, h4, h5, h6⟩
      rw [haddB] at h1
      injection h1 with h1
      subst h1
      rw [hdropB] at h2
      injection h2 with h2
      subst h2
      exact hnomatch a a p p h5 h6 h3 h4
  · next hnomatch =>
    refine ⟨⟨fun _ => ?_, fun _ => ⟨.consistencyError, rfl⟩⟩,
      fun c aB hc _ => absurd hc (by simp)⟩
    rintro ⟨aB, dB, p, a, h1, h2, h3, h4, h5, h6⟩
    exact hnomatch aB dB h1 h2

/-- C7 witness: the amended consistency claim at a concrete consistent
descriptor `C1` against a one-entry plan containing `C1`. -/
theorem C7_consistency_witness :
    ((∃ err, init_from_xml
        { channel := "C1",
          add := some { port := some "1", attenuation := some 3 },
          drop := some { port := some "1", attenuation := some 3 },
          description := none }
        [{ name := "C1", lowerFrequency := 191300000,
           upperFrequency := 191400000 }] = .error err) ↔
      ¬ ConsistentAddDrop
        { channel := "C1",
          add := some { port := some "1", attenuation := some 3 },
          drop := some { port := some "1", attenuation := some 3 },
          description := none }) ∧
    ∀ c addBlock, init_from_xml
        { channel := "C1",
          add := some { port := some "1", attenuation := some 3 },
          drop := some { port := some "1", attenuation := some 3 },
          description := none }
        [{ name := "C1", lowerFrequency := 191300000,
           upperFrequency := 191400000 }] = .ok c →
      (some { port := some "1", attenuation := some 3 } :
          Option AddDropBlock) = some addBlock →
      c.port = addBlock.port ∧ c.attenuation = addBlock.attenuation :=
  C7_consistency_amended
    { channel := "C1",
      add := some { port := some "1", attenuation := some 3 },
      drop := some { port := some "1", attenuation := some 3 },
      description := none }
    [{ name := "C1", lowerFrequency := 191300000, upperFrequency := 191400000 }]
    (by decide)
    ⟨{ name := "C1", lowerFrequency := 191300000, upperFrequency := 191400000 },
      by simp, rfl⟩

/-- C9: for every device-state descriptor named `"C-band"`, a successfully
constructed channel has port, attenuation and description all unset — even when
the descriptor carries add/drop blocks or a description — and the only possible
construction failure is a resolution error (no presence or add/drop-consistency
check is performed). -/
theorem C9_sentinel_fields_unset (d : XmlChannelDesc) (plan : ChannelPlan)
    (h : d.channel = "C-band") :
    (∀ c, init_from_xml d plan = .ok c →
        c.port = none ∧ c.attenuation = none ∧ c.description = none) ∧
    ∀ err, init_from_xml d plan = .error err → err = .resolutionError := by
  have hne : ¬ d.channel ≠ "C-band" := fun hc => hc h
  unfold init_from_xml
  rw [if_neg hne]
  dsimp only
  constructor
  · intro c hc
    rcases hfind : find_channel { origin := .xml, name := some d.channel } plan
      with _ | c'
    · rw [hfind] at hc
      exact absurd hc (by simp)
    · rw [hfind] at hc
      injection hc with hc
      subst hc
      have hpres := find_channel_preserves _ _ _ hfind
      exact ⟨hpres.2.1, hpres.2.2.1, hpres.2.2.2⟩
  · intro err herr
    rcases hfind : find_channel { origin := .xml, name := some d.channel } plan
      with _ | c'
    · rw [hfind] at herr
      injection herr with herr
      exact herr.symm
    · rw [hfind] at herr
      exact absurd herr (by simp)

/-- C9 witness: a `"C-band"` device-state descriptor carrying add/drop blocks
and a description, against a plan containing a `"C-band"` entry. -/
theorem C9_sentinel_fields_witness :
    (∀ c, init_from_xml
        { channel := "C-band",
          add := some { port := some "1", attenuation := some 1 },
          drop := some { port := some "2", attenuation := some 2 },
          description := some "broadcast" }
        [{ name := "C-band", lowerFrequency := 191300000,
           upperFrequency := 196100000 }] = .ok c →
      c.port = none ∧ c.attenuation = none ∧ c.description = none) ∧
    ∀ err, init_from_xml
        { channel := "C-band",
          add := some { port := some "1", attenuation := some 1 },
          drop := some { port := some "2", attenuation := some 2 },
          description := some "broadcast" }
        [{ name := "C-band", lowerFrequency := 191300000,
           upperFrequency := 196100000 }] = .error err →
      err = .resolutionError :=
  C9_sentinel_fields_unset
    { channel := "C-band",
      add := some { port := some "1", attenuation := some 1 },
      drop := some { port := some "2", attenuation := some 2 },
      description := some "broadcast" }
    [{ name := "C-band", lowerFrequency := 191300000,
       upperFrequency := 196100000 }] rfl

/-- C10: the sentinel exemption does not extend to grid resolution.  A
device-state descriptor named `"C-band"` is still resolved by name: when no
plan entry is named `"C-band"`, construction fails with a resolution error;
when the scan finds such an entry, the constructed channel's frequency fields
are populated from it exactly as for any other channel (bounds copied, span and
center derived with the `1e3`/`1e6` constants). -/
theorem C10_sentinel_resolution (d : XmlChannelDesc) (plan : ChannelPlan)
    (h : d.channel = "C-band") :
    ((∀ e ∈ plan, e.name ≠ "C-band") →
        init_from_xml d plan = .error .resolutionError) ∧
    ∀ e, (plan.find? fun e2 => e2.name = "C-band") = some e →
      ∃ c, init_from_xml d plan = .ok c ∧ c.name = some "C-band" ∧
        c.lower_frequency = some e.lowerFrequency ∧
        c.upper_frequency = some e.upperFrequency ∧
        c.frequency_span =
          some ((e.upperFrequency - e.lowerFrequency) / 1000) ∧
        c.frequency_center = some ((e.lowerFrequency +
          (e.upperFrequency - e.lowerFrequency) / 2) / 1000000) := by
  have hne : ¬ d.channel ≠ "C-band" := fun hc => hc h
  unfold init_from_xml
  rw [if_neg hne]
  dsimp only
  rw [find_channel_by_name { origin := .xml, name := some d.channel }
    "C-band" plan (by rw [h]) rfl]
  constructor
  · intro hnone
    have hfind : (plan.find? fun e2 => e2.name = "C-band") = none :=
      List.find?_eq_none.mpr (by simpa using hnone)
    rw [hfind]
    rfl
  · intro e he
    rw [he]
    exact ⟨_, rfl, by simp [h], rfl, rfl, rfl, rfl⟩

/-- C10 witness: both halves at concrete plans — a plan without a `"C-band"`
entry makes construction fail with a resolution error, and a plan with one
populates the frequency fields from that entry. -/
theorem C10_sentinel_resolution_witness :
    init_from_xml
      { channel := "C-band", add := none, drop := none, description := none }
      [{ name := "C1", lowerFrequency := 1, upperFrequency := 2 }] =
      .error .resolutionError ∧
    ∃ c, init_from_xml
      { channel := "C-band", add := none, drop := none, description := none }
      [{ name := "C-band", lowerFrequency := 191300000,
         upperFrequency := 196100000 }] = .ok c ∧
      c.name = some "C-band" ∧
      c.lower_frequency = some (191300000 : ℚ) ∧
      c.upper_frequency = some (196100000 : ℚ) ∧
      c.frequency_span = some (((196100000 : ℚ) - 191300000) / 1000) ∧
      c.frequency_center = some (((191300000 : ℚ) +
        ((196100000 : ℚ) - 191300000) / 2) / 1000000) :=
  ⟨(C10_sentinel_resolution
      { channel := "C-band", add := none, drop := none, description := none }
      [{ name := "C1", lowerFrequency := 1, upperFrequency := 2 }] rfl).1
      (by decide),
   (C10_sentinel_resolution
      { channel := "C-band", add := none, drop := none, description := none }
      [{ name := "C-band", lowerFrequency := 191300000,
         upperFrequency := 196100000 }] rfl).2
      { name := "C-band", lowerFrequency := 191300000,
        upperFrequency := 196100000 } (by decide)⟩

/-! ### Membership characterizations of the diff classes -/

/-- A channel is in `removed0` iff it is current and no proposed channel
shares its name. -/
theorem mem_removed0 {current proposed : List Channel} {c : Channel} :
    c ∈ removed0 current proposed ↔
      c ∈ current ∧ ∀ p ∈ proposed, p.name ≠ c.name := by
  simp [removed0, List.mem_filter, Option.isNone_iff_eq_none, List.find?_eq_none]

/-- A channel is in `added0` iff it is proposed and no current channel shares
its name. -/
theorem mem_added0 {current proposed : List Channel} {p : Channel} :
    p ∈ added0 current proposed ↔
      p ∈ proposed ∧ ∀ c ∈ current, c.name ≠ p.name := by
  simp [added0, List.mem_filter, Option.isNone_iff_eq_none, List.find?_eq_none]

/-- A pair is in `changed0` iff its current side is a current channel, its
proposed side is the first proposed channel with the same name, and the two
compare unequal under `Channel.__eq__`. -/
theorem mem_changed0 {current proposed : List Channel} {x : ChangedPair} :
    x ∈ changed0 current proposed ↔
      x.current ∈ current ∧
        (proposed.find? fun p => p.name = x.current.name) = some x.proposed ∧
        chanEq x.current x.proposed = false := by
  unfold changed0
  rw [List.mem_filterMap]
  constructor
  · rintro ⟨c, hc, hf⟩
    rcases hfind : proposed.find? fun p => p.name = c.name with _ | p
    · rw [hfind] at hf
      have hf' : (none : Option ChangedPair) = some x := hf
      cases hf'
    · rw [hfind] at hf
      have hf' : (if chanEq c p = true then none
          else some (⟨p, c⟩ : ChangedPair)) = some x := hf
      by_cases heq : chanEq c p = true
      · rw [if_pos heq] at hf'
        cases hf'
      · rw [if_neg heq] at hf'
        injection hf' with hf'
        subst hf'
        exact ⟨hc, hfind, Bool.not_eq_true _ ▸ heq⟩
  · rintro ⟨hc, hfind, heq⟩
    refine ⟨x.current, hc, ?_⟩
    rw [hfind]
    show (if chanEq x.current x.proposed = true then none
        else some (⟨x.proposed, x.current⟩ : ChangedPair)) = some x
    rw [if_neg (by simp [heq])]

/-- C3: merge convergence.  Reconciling the same proposed collection against a
current collection equal to a prior run's merged output yields no added
channels, no changed channels, and (as reported in merge mode) no removed
channels. -/
theorem C3_merge_convergence (current proposed : List Channel)
    (_hc : (current.map Channel.name).Nodup)
    (hp : (proposed.map Channel.name).Nodup) :
    (roadm_config (calculate_statistics current proposed).merged proposed
        .merge).added_channels = [] ∧
    (roadm_config (calculate_statistics current proposed).merged proposed
        .merge).changed_channels = [] ∧
    (roadm_config (calculate_statistics current proposed).merged proposed
        .merge).removed_channels = [] := by
  have hmergedMem : ∀ c : Channel,
      c ∈ (calculate_statistics current proposed).merged ↔
        c ∈ proposed ∨ c ∈ removed0 current proposed := by
    intro c
    show c ∈ (proposed ++ removed0 current proposed).mergeSort chanLe ↔ _
    rw [List.mem_mergeSort, List.mem_append]
  refine ⟨?_, ?_, rfl⟩
  · show (added0 (calculate_statistics current proposed).merged
        proposed).mergeSort chanLe = []
    have h0 : added0 (calculate_statistics current proposed).merged
        proposed = [] := by
      rw [added0, List.filter_eq_nil_iff]
      intro p hpmem
      have hpm : p ∈ (calculate_statistics current proposed).merged :=
        (hmergedMem p).mpr (Or.inl hpmem)
      have hsome :
          (((calculate_statistics current proposed).merged.find?
            fun c => c.name = p.name)).isSome :=
        List.find?_isSome.mpr ⟨p, hpm, by simp⟩
      simp only [Bool.not_eq_true, Option.isNone_eq_false_iff]
      exact hsome
    rw [h0, List.mergeSort_nil]
  · show (changed0 (calculate_statistics current proposed).merged
        proposed).mergeSort (fun x y =>
          x.current.name.getD "" ≤ y.current.name.getD "") = []
    have h0 : changed0 (calculate_statistics current proposed).merged
        proposed = [] := by
      rw [changed0, List.filterMap_eq_nil_iff]
      intro c hcm
      rcases (hmergedMem c).mp hcm with h1 | h2
      · have hfind : (proposed.find? fun p => p.name = c.name) = some c :=
          find?_name_self_of_nodup hp h1
        rw [hfind]
        show (if chanEq c c = true then none
            else some (⟨c, c⟩ : ChangedPair)) = none
        rw [if_pos (chanEq_refl c)]
      · have hnone : (proposed.find? fun p => p.name = c.name) = none := by
          rw [List.find?_eq_none]
          intro p hp2
          simpa using (mem_removed0.mp h2).2 p hp2
        rw [hnone]
    rw [h0, List.mergeSort_nil]

/-- C3 witness: merge convergence at concrete one-channel collections with
distinct names. -/
theorem C3_merge_convergence_witness :
    (roadm_config
        (calculate_statistics
          [{ origin := .xml, name := some "A", port := some "1",
             attenuation := some 1, lower_frequency := some 1,
             upper_frequency := some 2 }]
          [{ origin := .yaml, name := some "B", port := some "2",
             attenuation := some 2, lower_frequency := some 3,
             upper_frequency := some 4 }]).merged
        [{ origin := .yaml, name := some "B", port := some "2",
           attenuation := some 2, lower_frequency := some 3,
           upper_frequency := some 4 }] .merge).added_channels = [] ∧
    (roadm_config
        (calculate_statistics
          [{ origin := .xml, name := some "A", port := some "1",
             attenuation := some 1, lower_frequency := some 1,
             upper_frequency := some 2 }]
          [{ origin := .yaml, name := some "B", port := some "2",
             attenuation := some 2, lower_frequency := some 3,
             upper_frequency := some 4 }]).merged
        [{ origin := .yaml, name := some "B", port := some "2",
           attenuation := some 2, lower_frequency := some 3,
           upper_frequency := some 4 }] .merge).changed_channels = [] ∧
    (roadm_config
        (calculate_statistics
          [{ origin := .xml, name := some "A", port := some "1",
             attenuation := some 1, lower_frequency := some 1,
             upper_frequency := some 2 }]
          [{ origin := .yaml, name := some "B", port := some "2",
             attenuation := some 2, lower_frequency := some 3,
             upper_frequency := some 4 }]).merged
        [{ origin := .yaml, name := some "B", port := some "2",
           attenuation := some 2, lower_frequency := some 3,
           upper_frequency := some 4 }] .merge).removed_channels = [] :=
  C3_merge_convergence
    [{ origin := .xml, name := some "A", port := some "1",
       attenuation := some 1, lower_frequency := some 1,
       upper_frequency := some 2 }]
    [{ origin := .yaml, name := some "B", port := some "2",
       attenuation := some 2, lower_frequency := some 3,
       upper_frequency := some 4 }]
    (by decide) (by decide)

/-- Name-level characterization of `added0`: a name is added iff some proposed
channel bears it and no current channel does. -/
theorem added0_names {current proposed : List Channel} {n : Option String} :
    (∃ p ∈ added0 current proposed, p.name = n) ↔
      (∃ p ∈ proposed, p.name = n) ∧ ¬ ∃ c ∈ current, c.name = n := by
  constructor
  · rintro ⟨p, hpmem, rfl⟩
    rw [mem_added0] at hpmem
    exact ⟨⟨p, hpmem.1, rfl⟩, fun ⟨c, hcmem, hcn⟩ => hpmem.2 c hcmem hcn⟩
  · rintro ⟨⟨p, hpmem, rfl⟩, hno⟩
    exact ⟨p, mem_added0.mpr ⟨hpmem, fun c hcmem hcn => hno ⟨c, hcmem, hcn⟩⟩,
      rfl⟩

/-- Name-level characterization of `removed0`: a name is removed iff some
current channel bears it and no proposed channel does. -/
theorem removed0_names {current proposed : List Channel} {n : Option String} :
    (∃ c ∈ removed0 current proposed, c.name = n) ↔
      (∃ c ∈ current, c.name = n) ∧ ¬ ∃ p ∈ proposed, p.name = n := by
  constructor
  · rintro ⟨c, hcmem, rfl⟩
    rw [mem_removed0] at hcmem
    exact ⟨⟨c, hcmem.1, rfl⟩, fun ⟨p, hpmem, hpn⟩ => hcmem.2 p hpmem hpn⟩
  · rintro ⟨⟨c, hcmem, rfl⟩, hno⟩
    exact ⟨c, mem_removed0.mpr ⟨hcmem, fun p hpmem hpn => hno ⟨p, hpmem, hpn⟩⟩,
      rfl⟩

/-- Name-level characterization of `changed0` under unique proposed names: a
name is changed iff a current channel and a proposed channel bear it and they
compare unequal under `Channel.__eq__`. -/
theorem changed0_names {current proposed : List Channel} {n : Option String}
    (hp : (proposed.map Channel.name).Nodup) :
    (∃ x ∈ changed0 current proposed, x.current.name = n) ↔
      ∃ c ∈ current, ∃ p ∈ proposed, c.name = n ∧ p.name = n ∧
        chanEq c p = false := by
  constructor
  · rintro ⟨x, hx, rfl⟩
    rw [mem_changed0] at hx
    obtain ⟨hcur, hfind, hne⟩ := hx
    have hpmem := List.mem_of_find?_eq_some hfind
    have hpname : x.proposed.name = x.current.name := by
      simpa using List.find?_some hfind
    exact ⟨x.current, hcur, x.proposed, hpmem, rfl, hpname, hne⟩
  · rintro ⟨c, hcmem, p, hpmem, hcn, hpn, hne⟩
    have hfind : (proposed.find? fun q => q.name = c.name) = some p := by
      have hself := find?_name_self_of_nodup hp hpmem
      rw [hpn, ← hcn] at hself
      exact hself
    exact ⟨⟨p, c⟩, mem_changed0.mpr ⟨hcmem, hfind, hne⟩, hcn⟩

/-- C2: partition of the classification.  With unique names inside each
collection, the added and removed name sets are disjoint, and every name
occurring in `current ∪ proposed` falls into exactly one of the four classes:
added (proposed-only), removed (current-only), changed (in both, channels not
equal) or unchanged (in both, channels equal). -/
theorem C2_partition (current proposed : List Channel)
    (hc : (current.map Channel.name).Nodup)
    (hp : (proposed.map Channel.name).Nodup) :
    (∀ n : Option String,
      n ∈ (calculate_statistics current proposed).added.map Channel.name →
        n ∉ (calculate_statistics current proposed).removed.map
          Channel.name) ∧
    ∀ n : Option String,
      (n ∈ current.map Channel.name ∨ n ∈ proposed.map Channel.name) →
      ExactlyOne
        (n ∈ (calculate_statistics current proposed).added.map Channel.name)
        (n ∈ (calculate_statistics current proposed).removed.map Channel.name)
        (n ∈ (calculate_statistics current proposed).changed.map
          fun x => x.current.name)
        (∃ c ∈ current, ∃ p ∈ proposed, c.name = n ∧ p.name = n ∧
          chanEq c p = true) := by
  have hA : ∀ n : Option String,
      n ∈ (calculate_statistics current proposed).added.map Channel.name ↔
        (∃ p ∈ proposed, p.name = n) ∧ ¬ ∃ c ∈ current, c.name = n := by
    intro n
    have hperm : (((calculate_statistics current proposed).added).map
        Channel.name).Perm ((added0 current proposed).map Channel.name) :=
      (List.mergeSort_perm (added0 current proposed) chanLe).map Channel.name
    rw [hperm.mem_iff, List.mem_map]
    exact added0_names
  have hR : ∀ n : Option String,
      n ∈ (calculate_statistics current proposed).removed.map Channel.name ↔
        (∃ c ∈ current, c.name = n) ∧ ¬ ∃ p ∈ proposed, p.name = n := by
    intro n
    have hperm : (((calculate_statistics current proposed).removed).map
        Channel.name).Perm ((removed0 current proposed).map Channel.name) :=
      (List.mergeSort_perm (removed0 current proposed) chanLe).map Channel.name
    rw [hperm.mem_iff, List.mem_map]
    exact removed0_names
  have hCh : ∀ n : Option String,
      (n ∈ (calculate_statistics current proposed).changed.map
          fun x => x.current.name) ↔
        ∃ c ∈ current, ∃ p ∈ proposed, c.name = n ∧ p.name = n ∧
          chanEq c p = false := by
    intro n
    have hperm : (((calculate_statistics current proposed).changed).map
        fun x => x.current.name).Perm ((changed0 current proposed).map
          fun x => x.current.name) :=
      (List.mergeSort_perm (changed0 current proposed) _).map _
    rw [hperm.mem_iff, List.mem_map]
    exact changed0_names hp
  refine ⟨fun n hA' hR' => ((hA n).mp hA').2 ((hR n).mp hR').1, ?_⟩
  intro n hn
  unfold ExactlyOne
  by_cases hcur : ∃ c ∈ current, c.name = n
  · by_cases hprop : ∃ p ∈ proposed, p.name = n
    · obtain ⟨c, hcmem, hcn⟩ := hcur
      obtain ⟨p, hpmem, hpn⟩ := hprop
      by_cases heq : chanEq c p = true
      · refine Or.inr (Or.inr (Or.inr ⟨?_, ?_, ?_, ?_⟩))
        · exact fun h => ((hA n).mp h).2 ⟨c, hcmem, hcn⟩
        · exact fun h => ((hR n).mp h).2 ⟨p, hpmem, hpn⟩
        · intro h
          obtain ⟨c', hc'm, p', hp'm, hc'n, hp'n, hne⟩ := (hCh n).mp h
          have hcc : c' = c :=
            eq_of_name_eq_of_nodup hc hc'm hcmem (hc'n.trans hcn.symm)
          have hpp : p' = p :=
            eq_of_name_eq_of_nodup hp hp'm hpmem (hp'n.trans hpn.symm)
          rw [hcc, hpp, heq] at hne
          cases hne
        · exact ⟨c, hcmem, p, hpmem, hcn, hpn, heq⟩
      · refine Or.inr (Or.inr (Or.inl ⟨?_, ?_, ?_, ?_⟩))
        · exact fun h => ((hA n).mp h).2 ⟨c, hcmem, hcn⟩
        · exact fun h => ((hR n).mp h).2 ⟨p, hpmem, hpn⟩
        · exact (hCh n).mpr
            ⟨c, hcmem, p, hpmem, hcn, hpn, Bool.not_eq_true _ ▸ heq⟩
        · rintro ⟨c', hc'm, p', hp'm, hc'n, hp'n, heq'⟩
          have hcc : c' = c :=
            eq_of_name_eq_of_nodup hc hc'm hcmem (hc'n.trans hcn.symm)
          have hpp : p' = p :=
            eq_of_name_eq_of_nodup hp hp'm hpmem (hp'n.trans hpn.symm)
          rw [hcc, hpp] at heq'
          exact heq heq'
    · refine Or.inr (Or.inl ⟨?_, ?_, ?_, ?_⟩)
      · exact fun h => hprop ((hA n).mp h).1
      · exact (hR n).mpr ⟨hcur, hprop⟩
      · intro h
        obtain ⟨_, _, p', hp'm, _, hp'n, _⟩ := (hCh n).mp h
        exact hprop ⟨p', hp'm, hp'n⟩
      · rintro ⟨_, _, p', hp'm, _, hp'n, _⟩
        exact hprop ⟨p', hp'm, hp'n⟩
  · have hprop : ∃ p ∈ proposed, p.name = n := by
      rcases hn with h | h
      · exact absurd (List.mem_map.mp h) hcur
      · exact List.mem_map.mp h
    refine Or.inl ⟨?_, ?_, ?_, ?_⟩
    · exact (hA n).mpr ⟨hprop, hcur⟩
    · exact fun h => hcur ((hR n).mp h).1
    · intro h
      obtain ⟨c', hc'm, _, _, hc'n, _, _⟩ := (hCh n).mp h
      exact hcur ⟨c', hc'm, hc'n⟩
    · rintro ⟨c', hc'm, _, _, hc'n, _, _⟩
      exact hcur ⟨c', hc'm, hc'n⟩

/-- C2 witness: the partition at concrete one-channel collections with unique
names. -/
theorem C2_partition_witness :
    (∀ n : Option String,
      n ∈ (calculate_statistics [{ origin := .xml, name := some "A" }]
          [{ origin := .yaml, name := some "B" }]).added.map Channel.name →
        n ∉ (calculate_statistics [{ origin := .xml, name := some "A" }]
          [{ origin := .yaml, name := some "B" }]).removed.map
            Channel.name) ∧
    ∀ n : Option String,
      (n ∈ ([{ origin := .xml, name := some "A" }] : List Channel).map
          Channel.name ∨
       n ∈ ([{ origin := .yaml, name := some "B" }] : List Channel).map
          Channel.name) →
      ExactlyOne
        (n ∈ (calculate_statistics [{ origin := .xml, name := some "A" }]
          [{ origin := .yaml, name := some "B" }]).added.map Channel.name)
        (n ∈ (calculate_statistics [{ origin := .xml, name := some "A" }]
          [{ origin := .yaml, name := some "B" }]).removed.map Channel.name)
        (n ∈ (calculate_statistics [{ origin := .xml, name := some "A" }]
          [{ origin := .yaml, name := some "B" }]).changed.map
            fun x => x.current.name)
        (∃ c ∈ ([{ origin := .xml, name := some "A" }] : List Channel),
          ∃ p ∈ ([{ origin := .yaml, name := some "B" }] : List Channel),
            c.name = n ∧ p.name = n ∧ chanEq c p = true) :=
  C2_partition [{ origin := .xml, name := some "A" }]
    [{ origin := .yaml, name := some "B" }] (by decide) (by decide)

end Roadm
